import Mathlib

/-!
Verification of `mindboggle/shapes/laplace_beltrami/lbo.py`.

The module computes the Laplace-Beltrami spectrum of a triangle mesh via two
pipelines: a geometric (cotangent-weighted, lumped-mass) discretization
(`geometric_laplacian`) and a linear finite-element discretization
(`fem_laplacian`).  Floating-point numbers are embedded as real numbers;
numpy/scipy matrices are embedded as total functions `ℕ → ℕ → ℝ` together with
an explicit dimension (`num_nodes`), since the Python code carries the
dimension in the matrix shape.  The external mesh-utility collaborators
(cotangent kernel, adjacency enumerators) and the generalized eigensolver are
not part of the module; they are passed as explicit parameters, mirroring the
external-collaborator contracts.
-/

namespace LBO

/-- A 3-D point (a row of the `Nodes` array). -/
abbrev Vec3 : Type := ℝ × ℝ × ℝ

/-- A triangle: the three vertex indexes of a row of the `Faces` array. -/
abbrev Tri : Type := ℕ × ℕ × ℕ

/-- An n×n real matrix, embedded as a total function on indexes. -/
abbrev Mat : Type := ℕ → ℕ → ℝ

/-- Componentwise difference of two 3-D points (`Nodes[i] - Nodes[j]`). -/
def vsub (u v : Vec3) : Vec3 := (u.1 - v.1, u.2.1 - v.2.1, u.2.2 - v.2.2)

/-- Euclidean norm of a 3-D vector (`np.linalg.norm`). -/
noncomputable def vnorm (u : Vec3) : ℝ :=
  Real.sqrt (u.1 ^ 2 + u.2.1 ^ 2 + u.2.2 ^ 2)

/-- Distance between two 3-D points: `np.linalg.norm(Nodes[i] - Nodes[j])`. -/
noncomputable def vdist (u v : Vec3) : ℝ := vnorm (vsub u v)

/-- The origin, used as the out-of-range default for node lookups. -/
def v0 : Vec3 := ((0 : ℝ), (0 : ℝ), (0 : ℝ))

/-- Heron's radicand `s*(s-a)*(s-b)*(s-c)` with `s = (a+b+c)/2`,
the quantity under the square root in `area`. -/
noncomputable def heron (a b c : ℝ) : ℝ :=
  ((a + b + c) / 2) * ((a + b + c) / 2 - a) * ((a + b + c) / 2 - b) *
    ((a + b + c) / 2 - c)

/-- The area of one triangle, as computed by the loop body of `area`:
edge lengths `a`, `b`, `c`, semiperimeter `s = (a+b+c)/2`, and
`Area[i] = np.sqrt(s*(s-a)*(s-b)*(s-c))`. -/
noncomputable def triArea (Nodes : List Vec3) (T : Tri) : ℝ :=
  let a := vdist (Nodes.getD T.1 v0) (Nodes.getD T.2.1 v0)
  let b := vdist (Nodes.getD T.2.1 v0) (Nodes.getD T.2.2 v0)
  let c := vdist (Nodes.getD T.2.2 v0) (Nodes.getD T.1 v0)
  Real.sqrt (heron a b c)

/-- `area(Nodes, Meshes)`: the vector of triangle areas, `Area[i]` being the
area of the `i`-th face. -/
noncomputable def area (Nodes : List Vec3) (Meshes : List Tri) : List ℝ :=
  Meshes.map (triArea Nodes)

/-- `gen_V(Meshes, W, Neighbor)`: the diagonal matrix `V/3` with
`v[i] = sum([W[i,j] for j in Neighbor[i]])` for `i in range(num_nodes)`.
The dimension `num_nodes = W.shape[0]` is passed explicitly because matrices
are embedded as total functions. -/
noncomputable def gen_V (num_nodes : ℕ) (W : Mat) (Neighbor : ℕ → List ℕ) :
    Mat :=
  let v := (List.range num_nodes).map
    (fun i => ((Neighbor i).map (fun j => W i j)).sum)
  fun i j => (if i = j then v.getD i 0 else 0) / 3

/-- Matrix subtraction (`V - W`). -/
noncomputable def matSub (A B : Mat) : Mat := fun i j => A i j - B i j

/-- Matrix addition (`P + Q`). -/
noncomputable def matAdd (A B : Mat) : Mat := fun i j => A i j + B i j

/-- `masses(Nodes, Areas, Faces_at_Nodes)` (nested in `geometric_laplacian`):
`d[i] = sum([Areas[j] for j in Faces_at_Nodes[i]])`, `D = diag(d)`, `D /= 3`. -/
noncomputable def masses (num_nodes : ℕ) (Areas : List ℝ)
    (Faces_at_Nodes : ℕ → List ℕ) : Mat :=
  let d := (List.range num_nodes).map
    (fun i => ((Faces_at_Nodes i).map (fun j => Areas.getD j 0)).sum)
  fun i j => (if i = j then d.getD i 0 else 0) / 3

/-- A single sparse-matrix entry assignment `M[i,j] = x` on a `lil_matrix`. -/
noncomputable def setEntry (M : Mat) (i j : ℕ) (x : ℝ) : Mat :=
  fun a b => if a = i ∧ b = j then x else M a b

/-- `gen_P(edges, faces_at_edges, Area, num_nodes)` (nested in
`fem_laplacian`): starting from the zero matrix, for each `[i,j]` in `edges`
assign `P[i,j] = sum([Area[face] for face in faces_at_edges[(i,j)]])`, then
return `P/12`. -/
noncomputable def gen_P (edges : List (ℕ × ℕ)) (faces_at_edges : ℕ × ℕ → List ℕ)
    (Area : List ℝ) (num_nodes : ℕ) : Mat :=
  let P := edges.foldl
    (fun M e =>
      setEntry M e.1 e.2 (((faces_at_edges e).map (fun f => Area.getD f 0)).sum))
    (fun _ _ => (0 : ℝ))
  fun i j => P i j / 12

/-- `gen_Q(edges, faces_at_edges, Area, num_nodes, Neighbor, Faces_at_Nodes)`
(nested in `fem_laplacian`): `q[i] = sum([Area[k] for k in Faces_at_Nodes[i]])`,
`Q = diag(q)`, returned as `Q/6`.  The unused parameters of the Python
function are kept. -/
noncomputable def gen_Q (edges : List (ℕ × ℕ)) (faces_at_edges : ℕ × ℕ → List ℕ)
    (Area : List ℝ) (num_nodes : ℕ) (Neighbor : ℕ → List ℕ)
    (Faces_at_Nodes : ℕ → List ℕ) : Mat :=
  let q := (List.range num_nodes).map
    (fun i => ((Faces_at_Nodes i).map (fun k => Area.getD k 0)).sum)
  fun i j => (if i = j then q.getD i 0 else 0) / 6

/-- The external collaborators consumed by the two pipelines:
`mindboggle.utils.kernels.cotangent_kernel`, the `mindboggle.utils.mesh`
adjacency enumerators, and `scipy.sparse.linalg.eigs` (of which only the
eigenvalue list is used; `eigs ext A k M` stands for `eigs(A, k=k, M=M)[0]`). -/
structure Externals where
  cotangent_kernel : List Vec3 → List Tri → Mat
  find_neighbors : List Tri → ℕ → (ℕ → List ℕ)
  find_faces_at_vertices : List Tri → ℕ → (ℕ → List ℕ)
  find_faces_at_edges : List Tri → (ℕ × ℕ → List ℕ)
  find_edges : List Tri → List (ℕ × ℕ)
  eigs : Mat → ℕ → Mat → List ℝ

/-- The weight matrix as used by `geometric_laplacian`:
`W = cotangent_kernel(Nodes, Faces); W /= 2`. -/
noncomputable def geometric_W (ext : Externals) (Nodes : List Vec3)
    (Faces : List Tri) : Mat :=
  fun i j => ext.cotangent_kernel Nodes Faces i j / 2

/-- The stiffness matrix of `geometric_laplacian`:
`V = gen_V(Faces, W, Neighbor); A = V - W`. -/
noncomputable def geometric_stiffness (ext : Externals) (Nodes : List Vec3)
    (Faces : List Tri) : Mat :=
  matSub
    (gen_V Nodes.length (geometric_W ext Nodes Faces)
      (ext.find_neighbors Faces Nodes.length))
    (geometric_W ext Nodes Faces)

/-- The mass matrix of `geometric_laplacian`:
`D = masses(Nodes, Area, Faces_at_Nodes)`. -/
noncomputable def geometric_massD (ext : Externals) (Nodes : List Vec3)
    (Faces : List Tri) : Mat :=
  masses Nodes.length (area Nodes Faces)
    (ext.find_faces_at_vertices Faces Nodes.length)

/-- `geometric_laplacian(Nodes, Faces)`: if `num_nodes < 5` return the
sentinel `[-1,-1,-1,-1,-1]`; otherwise solve
`eigenvalues, eigenvectors = eigs(A, k=3, M=D)` and return `1/eigenvalues`. -/
noncomputable def geometric_laplacian (ext : Externals) (Nodes : List Vec3)
    (Faces : List Tri) : List ℝ :=
  if Nodes.length < 5 then [-1, -1, -1, -1, -1]
  else
    (ext.eigs (geometric_stiffness ext Nodes Faces) 3
        (geometric_massD ext Nodes Faces)).map
      (fun lam => 1 / lam)

/-- The weight matrix as used by `fem_laplacian` (the same code is repeated
in the source): `W = cotangent_kernel(Nodes, Faces); W /= 2`. -/
noncomputable def fem_W (ext : Externals) (Nodes : List Vec3)
    (Faces : List Tri) : Mat :=
  fun i j => ext.cotangent_kernel Nodes Faces i j / 2

/-- The stiffness matrix of `fem_laplacian` (same repeated code):
`V = gen_V(Faces, W, Neighbor); A = V - W`. -/
noncomputable def fem_stiffness (ext : Externals) (Nodes : List Vec3)
    (Faces : List Tri) : Mat :=
  matSub
    (gen_V Nodes.length (fem_W ext Nodes Faces)
      (ext.find_neighbors Faces Nodes.length))
    (fem_W ext Nodes Faces)

/-- The mass matrix of `fem_laplacian`:
`P = gen_P(...); Q = gen_Q(...); B = P + Q`. -/
noncomputable def fem_massB (ext : Externals) (Nodes : List Vec3)
    (Faces : List Tri) : Mat :=
  matAdd
    (gen_P (ext.find_edges Faces) (ext.find_faces_at_edges Faces)
      (area Nodes Faces) Nodes.length)
    (gen_Q (ext.find_edges Faces) (ext.find_faces_at_edges Faces)
      (area Nodes Faces) Nodes.length (ext.find_neighbors Faces Nodes.length)
      (ext.find_faces_at_vertices Faces Nodes.length))

/-- `fem_laplacian(Nodes, Faces)`: if `num_nodes < 5` return the sentinel
`[-1,-1,-1,-1,-1]`; otherwise solve `eigs(A, k=3, M=B)` and return
`1/eigenvalues`. -/
noncomputable def fem_laplacian (ext : Externals) (Nodes : List Vec3)
    (Faces : List Tri) : List ℝ :=
  if Nodes.length < 5 then [-1, -1, -1, -1, -1]
  else
    (ext.eigs (fem_stiffness ext Nodes Faces) 3
        (fem_massB ext Nodes Faces)).map
      (fun lam => 1 / lam)

/-! ### Helper lemmas -/

/-- Entry `i` of a list comprehension over `range num_nodes`, as used by the
`setdiag` calls. -/
theorem getD_map_range (g : ℕ → ℝ) (n i : ℕ) :
    ((List.range n).map g).getD i 0 = if i < n then g i else 0 := by
  rcases Nat.lt_or_ge i n with h | h
  · rw [List.getD_eq_getElem?_getD, List.getElem?_map, List.getElem?_range h]
    simp [h]
  · rw [List.getD_eq_getElem?_getD, List.getElem?_eq_none]
    · simp [Nat.not_lt.mpr h]
    · simpa using h

/-- The assignment loop of `gen_P`: since the assigned value depends only on
the index pair, the final entry at `(i, j)` is the assigned value when
`(i, j)` occurs among the edges, and the initial entry otherwise. -/
theorem foldl_setEntry (v : ℕ × ℕ → ℝ) (edges : List (ℕ × ℕ)) (M : Mat)
    (i j : ℕ) :
    (edges.foldl (fun M e => setEntry M e.1 e.2 (v e)) M) i j
      = if (i, j) ∈ edges then v (i, j) else M i j := by
  induction edges generalizing M with
  | nil => simp
  | cons e t ih =>
    obtain ⟨a, b⟩ := e
    rw [List.foldl_cons, ih]
    by_cases ht : (i, j) ∈ t
    · simp [ht]
    · by_cases he : (i, j) = (a, b)
      · obtain ⟨h1, h2⟩ := Prod.mk.injEq .. ▸ he
        subst h1; subst h2
        simp [ht, setEntry]
      · have h1 : ¬(i = a ∧ j = b) := by
          intro hx
          exact he (by rw [hx.1, hx.2])
        simp [ht, he, setEntry, h1]

/-- Summing a list comprehension that divides each term by a constant. -/
theorem sum_map_div (l : List ℕ) (f : ℕ → ℝ) (c : ℝ) :
    (l.map (fun k => f k / c)).sum = (l.map f).sum / c := by
  induction l with
  | nil => simp
  | cons a t ih =>
    simp only [List.map_cons, List.sum_cons, ih]
    ring

/-- `np.linalg.norm(u - v)` is symmetric in its two endpoints. -/
theorem vdist_comm (u v : Vec3) : vdist u v = vdist v u := by
  unfold vdist vnorm vsub
  congr 1
  ring

/-- `List.getD` through `List.map`, at an in-range index. -/
theorem getD_map_of_lt (f : Vec3 → Vec3) (l : List Vec3) (i : ℕ)
    (h : i < l.length) (d e : Vec3) :
    (l.map f).getD i d = f (l.getD i e) := by
  rw [List.getD_eq_getElem?_getD, List.getElem?_map,
    List.getD_eq_getElem?_getD, List.getElem?_eq_getElem h]
  simp

/-- Dividing an `if _ then _ else 0` by a constant. -/
theorem ite_div_zero (c : Prop) [Decidable c] (x d : ℝ) :
    (if c then x else 0) / d = if c then x / d else 0 := by
  split <;> simp

/-- Square-root evaluation at a perfect square. -/
theorem sqrt_eval (x r : ℝ) (h : r ^ 2 = x) (hr : 0 ≤ r) :
    Real.sqrt x = r := by
  rw [← h, Real.sqrt_sq hr]

/-! ### Sample data used by witnesses -/

/-- Trivial instantiation of the external collaborators (zero weight matrix,
empty adjacency, an eigensolver returning `k` zeros). -/
noncomputable def ext0 : Externals where
  cotangent_kernel := fun _ _ _ _ => 0
  find_neighbors := fun _ _ _ => []
  find_faces_at_vertices := fun _ _ _ => []
  find_faces_at_edges := fun _ _ => []
  find_edges := fun _ => []
  eigs := fun _ k _ => List.replicate k 0

/-- A 5-node list (degenerate coordinates; only its length matters where it
is used). -/
noncomputable def nodesZ5 : List Vec3 := [v0, v0, v0, v0, v0]

/-! ### Claims -/

/-- C1: for a mesh with fewer than 5 vertices both pipelines return exactly
the 5-element sentinel `[-1,-1,-1,-1,-1]`; for a mesh with at least 5
vertices, provided the eigensolver honours its contract of returning the
requested number `k` of eigenvalues, both pipelines return exactly 3
eigenvalues. -/
theorem C1_small_mesh_guard (ext : Externals)
    (heigs : ∀ A k M, (ext.eigs A k M).length = k)
    (Nodes : List Vec3) (Faces : List Tri) :
    (Nodes.length < 5 →
      geometric_laplacian ext Nodes Faces = [-1, -1, -1, -1, -1] ∧
        fem_laplacian ext Nodes Faces = [-1, -1, -1, -1, -1]) ∧
    (5 ≤ Nodes.length →
      (geometric_laplacian ext Nodes Faces).length = 3 ∧
        (fem_laplacian ext Nodes Faces).length = 3) := by
  constructor
  · intro h
    simp [geometric_laplacian, fem_laplacian, h]
  · intro h
    have h' : ¬Nodes.length < 5 := Nat.not_lt.mpr h
    simp [geometric_laplacian, fem_laplacian, h', heigs]

/-- C1, witnessed at a 1-node mesh (sentinel) and a 5-node mesh (3 values). -/
theorem C1_small_mesh_guard_witness :
    (geometric_laplacian ext0 [v0] [] = [-1, -1, -1, -1, -1] ∧
      fem_laplacian ext0 [v0] [] = [-1, -1, -1, -1, -1]) ∧
    ((geometric_laplacian ext0 nodesZ5 []).length = 3 ∧
      (fem_laplacian ext0 nodesZ5 []).length = 3) :=
  ⟨(C1_small_mesh_guard ext0 (fun A k M => by simp [ext0]) [v0] []).1
      (by simp),
    (C1_small_mesh_guard ext0 (fun A k M => by simp [ext0]) nodesZ5 []).2
      (by simp [nodesZ5])⟩

/-- C3: for every vertex index `i` below the matrix dimension, the assembled
stiffness matrix has entries `A[i,j] = (if i = j then the row sum of W over
the neighbors of i, divided by 3, else 0) - W[i,j]`, i.e. `A = diag(V) - W`
with `V[i] = (1/3) * sum of W[i,j] over j in Neighbor[i]`; and the geometric
and the FEM pipeline assemble the same stiffness matrix. -/
theorem C3_stiffness_assembly (W : Mat) (Nb : ℕ → List ℕ) (n i j : ℕ)
    (hi : i < n) :
    matSub (gen_V n W Nb) W i j
      = (if i = j then ((Nb i).map (fun k => W i k)).sum / 3 else 0) - W i j
    ∧ ∀ (ext : Externals) (Nodes : List Vec3) (Faces : List Tri),
        geometric_stiffness ext Nodes Faces = fem_stiffness ext Nodes Faces := by
  constructor
  · simp only [matSub, gen_V]
    rw [getD_map_range]
    simp only [hi, if_true]
    by_cases hij : i = j <;> simp [hij]
  · intro ext Nodes Faces
    rfl

/-- C3, witnessed at the zero weight matrix with empty neighborhoods. -/
theorem C3_stiffness_assembly_witness :
    matSub (gen_V 5 (fun _ _ => (0 : ℝ)) (fun _ => [])) (fun _ _ => (0 : ℝ))
        0 0
      = (if 0 = 0 then
          (((fun _ => ([] : List ℕ)) 0).map
            (fun k => (fun _ _ => (0 : ℝ)) 0 k)).sum / 3
        else 0) - (fun _ _ => (0 : ℝ)) 0 0
    ∧ ∀ (ext : Externals) (Nodes : List Vec3) (Faces : List Tri),
        geometric_stiffness ext Nodes Faces = fem_stiffness ext Nodes Faces :=
  C3_stiffness_assembly (fun _ _ => 0) (fun _ => []) 5 0 0 (by norm_num)

/-- C4: for a mesh with at least 5 vertices, the geometric mass matrix is
diagonal with `D[i] = (sum of Area[f] for f in Faces_at_Nodes[i]) / 3` at
every in-range index pair, and zero off the diagonal. -/
theorem C4_geometric_mass (ext : Externals) (Nodes : List Vec3)
    (Faces : List Tri) (h : 5 ≤ Nodes.length) (i j : ℕ)
    (hi : i < Nodes.length) (hj : j < Nodes.length) :
    geometric_massD ext Nodes Faces i j
      = if i = j then
          ((ext.find_faces_at_vertices Faces Nodes.length i).map
            (fun f => (area Nodes Faces).getD f 0)).sum / 3
        else 0 := by
  simp only [geometric_massD, masses]
  rw [getD_map_range]
  simp only [hi, if_true]
  by_cases hij : i = j <;> simp [hij]

/-- C4, witnessed at a 5-node mesh with the trivial externals. -/
theorem C4_geometric_mass_witness :
    geometric_massD ext0 nodesZ5 [] 0 0
      = if 0 = 0 then
          ((ext0.find_faces_at_vertices [] nodesZ5.length 0).map
            (fun f => (area nodesZ5 []).getD f 0)).sum / 3
        else 0 :=
  C4_geometric_mass ext0 nodesZ5 [] (by simp [nodesZ5]) 0 0
    (by simp [nodesZ5]) (by simp [nodesZ5])

/-- C5: for a mesh with at least 5 vertices, the FEM mass matrix is
`B = P + Q` where the `P` contribution is `(sum of Area[f] for f in
faces_at_edges[(i,j)]) / 12` exactly when `(i,j)` is emitted by the edge
enumerator and zero otherwise, and the `Q` contribution is the diagonal
`(sum of Area[f] for f in Faces_at_Nodes[i]) / 6`. -/
theorem C5_fem_mass (ext : Externals) (Nodes : List Vec3) (Faces : List Tri)
    (h : 5 ≤ Nodes.length) (i j : ℕ) (hi : i < Nodes.length)
    (hj : j < Nodes.length) :
    fem_massB ext Nodes Faces i j
      = (if (i, j) ∈ ext.find_edges Faces then
          ((ext.find_faces_at_edges Faces (i, j)).map
            (fun f => (area Nodes Faces).getD f 0)).sum / 12
        else 0)
      + (if i = j then
          ((ext.find_faces_at_vertices Faces Nodes.length i).map
            (fun f => (area Nodes Faces).getD f 0)).sum / 6
        else 0) := by
  simp only [fem_massB, matAdd, gen_P, gen_Q]
  rw [foldl_setEntry, getD_map_range]
  simp only [hi, if_true, ite_div_zero]

/-- C5, witnessed at a 5-node mesh with the trivial externals. -/
theorem C5_fem_mass_witness :
    fem_massB ext0 nodesZ5 [] 0 0
      = (if ((0 : ℕ), (0 : ℕ)) ∈ ext0.find_edges [] then
          ((ext0.find_faces_at_edges [] (0, 0)).map
            (fun f => (area nodesZ5 []).getD f 0)).sum / 12
        else 0)
      + (if 0 = 0 then
          ((ext0.find_faces_at_vertices [] nodesZ5.length 0).map
            (fun f => (area nodesZ5 []).getD f 0)).sum / 6
        else 0) :=
  C5_fem_mass ext0 nodesZ5 [] (by simp [nodesZ5]) 0 0
    (by simp [nodesZ5]) (by simp [nodesZ5])

/-- C6: for a mesh with at least 5 vertices, each pipeline returns exactly
the elementwise reciprocal of the eigenvalue list produced by one call of
the generalized eigensolver with `k = 3` on its stiffness and mass matrices,
in the order the solver produced it (no sorting). -/
theorem C6_reciprocal_spectrum (ext : Externals) (Nodes : List Vec3)
    (Faces : List Tri) (h : 5 ≤ Nodes.length) :
    geometric_laplacian ext Nodes Faces
      = (ext.eigs (geometric_stiffness ext Nodes Faces) 3
          (geometric_massD ext Nodes Faces)).map (fun lam => 1 / lam)
    ∧ fem_laplacian ext Nodes Faces
      = (ext.eigs (fem_stiffness ext Nodes Faces) 3
          (fem_massB ext Nodes Faces)).map (fun lam => 1 / lam) := by
  have h' : ¬Nodes.length < 5 := Nat.not_lt.mpr h
  exact ⟨by simp [geometric_laplacian, h'], by simp [fem_laplacian, h']⟩

/-- C6, witnessed at a 5-node mesh with the trivial externals. -/
theorem C6_reciprocal_spectrum_witness :
    geometric_laplacian ext0 nodesZ5 []
      = (ext0.eigs (geometric_stiffness ext0 nodesZ5 []) 3
          (geometric_massD ext0 nodesZ5 [])).map (fun lam => 1 / lam)
    ∧ fem_laplacian ext0 nodesZ5 []
      = (ext0.eigs (fem_stiffness ext0 nodesZ5 []) 3
          (fem_massB ext0 nodesZ5 [])).map (fun lam => 1 / lam) :=
  C6_reciprocal_spectrum ext0 nodesZ5 [] (by simp [nodesZ5])

/-- C9: both pipelines are deterministic — two invocations on equal vertex
and face arrays (with the same external collaborators) yield equal spectra;
every stage is a pure function of its inputs and no state is shared across
calls, so the outputs are in fact identical, which is stronger than equality
up to tolerance and permutation. -/
theorem C9_determinism (ext : Externals) (N1 N2 : List Vec3)
    (F1 F2 : List Tri) (hN : N1 = N2) (hF : F1 = F2) :
    geometric_laplacian ext N1 F1 = geometric_laplacian ext N2 F2
    ∧ fem_laplacian ext N1 F1 = fem_laplacian ext N2 F2 := by
  subst hN
  subst hF
  exact ⟨rfl, rfl⟩

/-- C9, witnessed at a concrete mesh. -/
theorem C9_determinism_witness :
    geometric_laplacian ext0 [v0] [] = geometric_laplacian ext0 [v0] []
    ∧ fem_laplacian ext0 [v0] [] = fem_laplacian ext0 [v0] [] :=
  C9_determinism ext0 [v0] [v0] [] [] rfl rfl

/-- C10: both pipelines halve the provider's weight matrix (`W /= 2`) before
stiffness assembly, so the assembled stiffness matrix is exactly half of
what the assembly formula applied to the raw provider output would give. -/
theorem C10_halved_weights (ext : Externals) (Nodes : List Vec3)
    (Faces : List Tri) (h : 5 ≤ Nodes.length) (i j : ℕ)
    (hi : i < Nodes.length) (hj : j < Nodes.length) :
    geometric_W ext Nodes Faces i j
      = ext.cotangent_kernel Nodes Faces i j / 2
    ∧ geometric_stiffness ext Nodes Faces i j
      = matSub
          (gen_V Nodes.length (ext.cotangent_kernel Nodes Faces)
            (ext.find_neighbors Faces Nodes.length))
          (ext.cotangent_kernel Nodes Faces) i j / 2
    ∧ fem_stiffness ext Nodes Faces i j
      = matSub
          (gen_V Nodes.length (ext.cotangent_kernel Nodes Faces)
            (ext.find_neighbors Faces Nodes.length))
          (ext.cotangent_kernel Nodes Faces) i j / 2 := by
  have key :
      matSub
          (gen_V Nodes.length (geometric_W ext Nodes Faces)
            (ext.find_neighbors Faces Nodes.length))
          (geometric_W ext Nodes Faces) i j
        = matSub
            (gen_V Nodes.length (ext.cotangent_kernel Nodes Faces)
              (ext.find_neighbors Faces Nodes.length))
            (ext.cotangent_kernel Nodes Faces) i j / 2 := by
    simp only [matSub, gen_V, geometric_W]
    rw [getD_map_range, getD_map_range]
    simp only [hi, if_true]
    rw [sum_map_div]
    by_cases hij : i = j <;> simp [hij] <;> ring
  exact ⟨rfl, key, key⟩

/-- C10, witnessed at a 5-node mesh with the trivial externals. -/
theorem C10_halved_weights_witness :
    geometric_W ext0 nodesZ5 [] 0 0
      = ext0.cotangent_kernel nodesZ5 [] 0 0 / 2
    ∧ geometric_stiffness ext0 nodesZ5 [] 0 0
      = matSub
          (gen_V nodesZ5.length (ext0.cotangent_kernel nodesZ5 [])
            (ext0.find_neighbors [] nodesZ5.length))
          (ext0.cotangent_kernel nodesZ5 []) 0 0 / 2
    ∧ fem_stiffness ext0 nodesZ5 [] 0 0
      = matSub
          (gen_V nodesZ5.length (ext0.cotangent_kernel nodesZ5 [])
            (ext0.find_neighbors [] nodesZ5.length))
          (ext0.cotangent_kernel nodesZ5 []) 0 0 / 2 :=
  C10_halved_weights ext0 nodesZ5 [] (by simp [nodesZ5]) 0 0
    (by simp [nodesZ5]) (by simp [nodesZ5])

/-- A concrete 3-node right triangle, used to witness area claims. -/
noncomputable def nodesTri : List Vec3 :=
  [v0, ((1 : ℝ), (0 : ℝ), (0 : ℝ)), ((0 : ℝ), (1 : ℝ), (0 : ℝ))]

/-- C8: the computed triangle area is unchanged under every permutation of
the triangle's three vertex indexes, and under applying any
distance-preserving map (in particular any rigid rotation or translation) to
all vertex coordinates. -/
theorem C8_area_invariance (Nodes : List Vec3) (i j k : ℕ) (f : Vec3 → Vec3)
    (hi : i < Nodes.length) (hj : j < Nodes.length) (hk : k < Nodes.length)
    (hf : ∀ u v, vdist (f u) (f v) = vdist u v) :
    triArea (Nodes.map f) (i, j, k) = triArea Nodes (i, j, k)
    ∧ triArea Nodes (i, k, j) = triArea Nodes (i, j, k)
    ∧ triArea Nodes (j, i, k) = triArea Nodes (i, j, k)
    ∧ triArea Nodes (j, k, i) = triArea Nodes (i, j, k)
    ∧ triArea Nodes (k, i, j) = triArea Nodes (i, j, k)
    ∧ triArea Nodes (k, j, i) = triArea Nodes (i, j, k) := by
  have m1 : (Nodes.map f).getD i v0 = f (Nodes.getD i v0) :=
    getD_map_of_lt f Nodes i hi v0 v0
  have m2 : (Nodes.map f).getD j v0 = f (Nodes.getD j v0) :=
    getD_map_of_lt f Nodes j hj v0 v0
  have m3 : (Nodes.map f).getD k v0 = f (Nodes.getD k v0) :=
    getD_map_of_lt f Nodes k hk v0 v0
  refine ⟨?_, ?_, ?_, ?_, ?_, ?_⟩
  · simp only [triArea]
    rw [m1, m2, m3, hf, hf, hf]
  · simp only [triArea]
    rw [vdist_comm (Nodes.getD i v0) (Nodes.getD k v0),
      vdist_comm (Nodes.getD k v0) (Nodes.getD j v0),
      vdist_comm (Nodes.getD j v0) (Nodes.getD i v0)]
    congr 1
    unfold heron
    ring
  · simp only [triArea]
    rw [vdist_comm (Nodes.getD j v0) (Nodes.getD i v0),
      vdist_comm (Nodes.getD i v0) (Nodes.getD k v0),
      vdist_comm (Nodes.getD k v0) (Nodes.getD j v0)]
    congr 1
    unfold heron
    ring
  · simp only [triArea]
    congr 1
    unfold heron
    ring
  · simp only [triArea]
    congr 1
    unfold heron
    ring
  · simp only [triArea]
    rw [vdist_comm (Nodes.getD k v0) (Nodes.getD j v0),
      vdist_comm (Nodes.getD j v0) (Nodes.getD i v0),
      vdist_comm (Nodes.getD i v0) (Nodes.getD k v0)]
    congr 1
    unfold heron
    ring

/-- C8, witnessed at a concrete right triangle with the identity as the
rigid motion. -/
theorem C8_area_invariance_witness :
    triArea (nodesTri.map id) (0, 1, 2) = triArea nodesTri (0, 1, 2)
    ∧ triArea nodesTri (0, 2, 1) = triArea nodesTri (0, 1, 2)
    ∧ triArea nodesTri (1, 0, 2) = triArea nodesTri (0, 1, 2)
    ∧ triArea nodesTri (1, 2, 0) = triArea nodesTri (0, 1, 2)
    ∧ triArea nodesTri (2, 0, 1) = triArea nodesTri (0, 1, 2)
    ∧ triArea nodesTri (2, 1, 0) = triArea nodesTri (0, 1, 2) :=
  C8_area_invariance nodesTri 0 1 2 id (by simp [nodesTri]) (by simp [nodesTri])
    (by simp [nodesTri]) (fun u v => rfl)

/-! ### C2: degenerate triangles -/

/-- Heron's radicand vanishes when one side is the sum of the other two. -/
theorem heron_degenerate (a b : ℝ) : heron a b (a + b) = 0 := by
  unfold heron
  ring

/-- Heron's radicand at side lengths 1, 1, 2 (a collinear triple). -/
theorem heron_1_1_2 : heron 1 1 2 = 0 := by
  unfold heron
  norm_num

/-- Heron's radicand at side lengths 3, 4, 5. -/
theorem heron_3_4_5 : heron 3 4 5 = 36 := by
  unfold heron
  norm_num

/-- Three collinear points on the x-axis. -/
noncomputable def nodesCollinear : List Vec3 :=
  [v0, ((1 : ℝ), (0 : ℝ), (0 : ℝ)), ((2 : ℝ), (0 : ℝ), (0 : ℝ))]

/-- Distance from the origin to `(1,0,0)`. -/
theorem dC01 : vdist v0 ((1 : ℝ), (0 : ℝ), (0 : ℝ)) = 1 := by
  simp only [vdist, vnorm, vsub, v0]
  norm_num

/-- Distance from `(1,0,0)` to `(2,0,0)`. -/
theorem dC12 :
    vdist ((1 : ℝ), (0 : ℝ), (0 : ℝ)) ((2 : ℝ), (0 : ℝ), (0 : ℝ)) = 1 := by
  simp only [vdist, vnorm, vsub]
  norm_num

/-- Distance from `(2,0,0)` back to the origin. -/
theorem dC20 : vdist ((2 : ℝ), (0 : ℝ), (0 : ℝ)) v0 = 2 := by
  simp only [vdist, vnorm, vsub, v0]
  norm_num
  exact sqrt_eval 4 2 (by norm_num) (by norm_num)

/-- C2 (amended): the area computation performs no degeneracy detection.
In exact arithmetic a point-derived Heron radicand is never negative; for a
degenerate (collinear) face, where the longest side equals the sum of the
other two, the code returns the plain value 0 — not an error — and that zero
is absorbed into the Area vector consumed by the downstream matrix
builders. -/
theorem C2_degenerate_area_flows (Nodes : List Vec3) (T : Tri)
    (hdeg : vdist (Nodes.getD T.2.2 v0) (Nodes.getD T.1 v0)
      = vdist (Nodes.getD T.1 v0) (Nodes.getD T.2.1 v0)
        + vdist (Nodes.getD T.2.1 v0) (Nodes.getD T.2.2 v0)) :
    triArea Nodes T = 0
    ∧ ∀ Meshes : List Tri, T ∈ Meshes → (0 : ℝ) ∈ area Nodes Meshes := by
  have h1 : triArea Nodes T = 0 := by
    simp only [triArea]
    rw [hdeg, heron_degenerate, Real.sqrt_zero]
  refine ⟨h1, ?_⟩
  intro Meshes hT
  unfold area
  exact List.mem_map.mpr ⟨T, hT, h1⟩

/-- C2 (amended), witnessed at three collinear points on the x-axis. -/
theorem C2_degenerate_area_flows_witness :
    triArea nodesCollinear (0, 1, 2) = 0
    ∧ ∀ Meshes : List Tri, ((0 : ℕ), (1 : ℕ), (2 : ℕ)) ∈ Meshes →
        (0 : ℝ) ∈ area nodesCollinear Meshes :=
  C2_degenerate_area_flows nodesCollinear (0, 1, 2) (by
    show vdist ((2 : ℝ), (0 : ℝ), (0 : ℝ)) v0
      = vdist v0 ((1 : ℝ), (0 : ℝ), (0 : ℝ))
        + vdist ((1 : ℝ), (0 : ℝ), (0 : ℝ)) ((2 : ℝ), (0 : ℝ), (0 : ℝ))
    rw [dC01, dC12, dC20]
    norm_num)

/-- C2 counterexample: at a face of three collinear points the area
computation does not report any degenerate-geometry error — it returns the
ordinary Area vector `[0]`, which flows on into the downstream matrix
builders unchanged. -/
theorem C2_counterexample :
    area nodesCollinear [((0 : ℕ), (1 : ℕ), (2 : ℕ))] = [0] := by
  have h1 : triArea nodesCollinear (0, 1, 2) = 0 := by
    show Real.sqrt (heron (vdist v0 ((1 : ℝ), (0 : ℝ), (0 : ℝ)))
      (vdist ((1 : ℝ), (0 : ℝ), (0 : ℝ)) ((2 : ℝ), (0 : ℝ), (0 : ℝ)))
      (vdist ((2 : ℝ), (0 : ℝ), (0 : ℝ)) v0)) = 0
    rw [dC01, dC12, dC20, heron_1_1_2, Real.sqrt_zero]
  unfold area
  simp only [List.map_cons, List.map_nil, h1]

/-! ### C7: FEM mass-matrix asymmetry -/

/-- A 5-node mesh whose face 0 is a 3-4-5 right triangle. -/
noncomputable def nodes345 : List Vec3 :=
  [v0, ((3 : ℝ), (0 : ℝ), (0 : ℝ)), ((3 : ℝ), (4 : ℝ), (0 : ℝ)),
    ((0 : ℝ), (4 : ℝ), (0 : ℝ)), ((0 : ℝ), (0 : ℝ), (1 : ℝ))]

/-- The faces of the 5-node mesh; every vertex occurs in some face. -/
def faces345 : List Tri := [(0, 1, 2), (0, 2, 3), (0, 3, 4)]

/-- Modelled from the spec: the `mindboggle.utils.mesh` enumerators are not
part of this module, so their outputs for the 5-node mesh are instantiated
here following their contracts — the adjacency maps of `faces345`, and a
deduplicated undirected edge list (each edge emitted in exactly one
orientation, per the edge-enumerator contract); the kernel and eigensolver
are trivial since the mass matrix does not consume them. -/
noncomputable def ext1 : Externals where
  cotangent_kernel := fun _ _ _ _ => 0
  find_neighbors := fun _ _ i =>
    if i = 0 then [1, 2, 3, 4] else if i = 1 then [0, 2]
    else if i = 2 then [0, 1, 3] else if i = 3 then [0, 2, 4]
    else if i = 4 then [0, 3] else []
  find_faces_at_vertices := fun _ _ i =>
    if i = 0 then [0, 1, 2] else if i = 1 then [0] else if i = 2 then [0, 1]
    else if i = 3 then [1, 2] else if i = 4 then [2] else []
  find_faces_at_edges := fun _ e =>
    if e = (0, 1) then [0] else if e = (1, 2) then [0]
    else if e = (0, 2) then [0, 1] else if e = (2, 3) then [1]
    else if e = (0, 3) then [1, 2] else if e = (3, 4) then [2]
    else if e = (0, 4) then [2] else []
  find_edges := fun _ =>
    [(0, 1), (1, 2), (0, 2), (2, 3), (0, 3), (3, 4), (0, 4)]
  eigs := fun _ k _ => List.replicate k 0

/-- Distance from the origin to `(3,0,0)`. -/
theorem d345a : vdist v0 ((3 : ℝ), (0 : ℝ), (0 : ℝ)) = 3 := by
  simp only [vdist, vnorm, vsub, v0]
  norm_num
  exact sqrt_eval 9 3 (by norm_num) (by norm_num)

/-- Distance from `(3,0,0)` to `(3,4,0)`. -/
theorem d345b :
    vdist ((3 : ℝ), (0 : ℝ), (0 : ℝ)) ((3 : ℝ), (4 : ℝ), (0 : ℝ)) = 4 := by
  simp only [vdist, vnorm, vsub]
  norm_num
  exact sqrt_eval 16 4 (by norm_num) (by norm_num)

/-- Distance from `(3,4,0)` back to the origin. -/
theorem d345c : vdist ((3 : ℝ), (4 : ℝ), (0 : ℝ)) v0 = 5 := by
  simp only [vdist, vnorm, vsub, v0]
  norm_num
  exact sqrt_eval 25 5 (by norm_num) (by norm_num)

/-- The area of face 0 of the 5-node mesh (the 3-4-5 triangle). -/
theorem area345 : triArea nodes345 ((0 : ℕ), (1 : ℕ), (2 : ℕ)) = 6 := by
  show Real.sqrt (heron (vdist v0 ((3 : ℝ), (0 : ℝ), (0 : ℝ)))
    (vdist ((3 : ℝ), (0 : ℝ), (0 : ℝ)) ((3 : ℝ), (4 : ℝ), (0 : ℝ)))
    (vdist ((3 : ℝ), (4 : ℝ), (0 : ℝ)) v0)) = 6
  rw [d345a, d345b, d345c, heron_3_4_5]
  exact sqrt_eval 36 6 (by norm_num) (by norm_num)

/-- C7 (amended): the FEM mass matrix is not symmetric in general.  `P` is
assigned only at the orientation emitted by the edge enumerator, so for an
edge `(i,j)` emitted as `(i,j)` but not as `(j,i)`, the difference
`B[i,j] - B[j,i]` equals the `P` entry — the incident-face area sum divided
by 12 — and symmetry holds only when that sum vanishes. -/
theorem C7_mass_asymmetry (ext : Externals) (Nodes : List Vec3)
    (Faces : List Tri) (i j : ℕ) (hij : i ≠ j)
    (hmem : (i, j) ∈ ext.find_edges Faces)
    (hnot : (j, i) ∉ ext.find_edges Faces) :
    fem_massB ext Nodes Faces i j - fem_massB ext Nodes Faces j i
      = ((ext.find_faces_at_edges Faces (i, j)).map
          (fun f => (area Nodes Faces).getD f 0)).sum / 12 := by
  simp only [fem_massB, matAdd, gen_P, gen_Q]
  rw [foldl_setEntry, foldl_setEntry]
  simp [hmem, hnot, hij, Ne.symm hij]

/-- C7 (amended), witnessed at the 5-node mesh: the edge `(0,1)` is emitted
once, so `B[0,1] - B[1,0]` is its incident-face area sum over 12. -/
theorem C7_mass_asymmetry_witness :
    fem_massB ext1 nodes345 faces345 0 1 - fem_massB ext1 nodes345 faces345 1 0
      = ((ext1.find_faces_at_edges faces345 (0, 1)).map
          (fun f => (area nodes345 faces345).getD f 0)).sum / 12 :=
  C7_mass_asymmetry ext1 nodes345 faces345 0 1 (by decide)
    (by simp [ext1]) (by simp [ext1])

/-- C7 counterexample: on the 5-node mesh with its deduplicated undirected
edge list, the assembled FEM mass matrix has `B[0,1] = 1/2` but
`B[1,0] = 0`, so `B[i,j] = B[j,i]` fails at the mesh edge `(0,1)`. -/
theorem C7_counterexample :
    (5 : ℕ) ≤ nodes345.length
    ∧ ((0 : ℕ), (1 : ℕ)) ∈ ext1.find_edges faces345
    ∧ fem_massB ext1 nodes345 faces345 0 1 = 1 / 2
    ∧ fem_massB ext1 nodes345 faces345 1 0 = 0 := by
  refine ⟨by simp [nodes345], by simp [ext1], ?_, ?_⟩
  · simp only [fem_massB, matAdd, gen_P, gen_Q]
    rw [foldl_setEntry]
    simp [ext1, faces345, area, area345]
    norm_num
  · simp only [fem_massB, matAdd, gen_P, gen_Q]
    rw [foldl_setEntry]
    simp [ext1]

end LBO
